import Mathlib

/-!
Verification of the aws-sagemaker instructional notebooks.

The repository holds two notebooks: a deployment notebook (register a model,
create an endpoint configuration, deploy, invoke and tear down a SageMaker
endpoint) and a data-processing notebook whose `%%writefile` cell emits
`preprocessing_script.py`, a pandas/sklearn tabular cleanup script run as a
SageMaker processing job.  This file shallowly embeds the notebook code that
the claims are about and proves or refutes each claim against it.
-/

/-! ## The cleanup polling loop (deployment notebook, cleanup cell)

The cell runs `delete_endpoint` and then

    while True:
        try:
            sagemaker_client.describe_endpoint(EndpointName=endpoint_name)
            print("Endpoint is still being deleted. Waiting...")
            time.sleep(30)
        except sagemaker_client.exceptions.ClientError as e:
            if e.response['Error']['Code'] == 'ValidationException':
                print("Endpoint deleted successfully.")
                break

The loop is embedded as a function of the sequence of outcomes the successive
`describe_endpoint` calls would produce: each call either returns normally,
raises a botocore `ClientError` carrying an error code, or raises some other
exception. -/

/-- Outcome of one SDK call: normal return, a `ClientError` with its error
code, or an exception that is not a `ClientError`. -/
inductive SdkOutcome where
  | success
  | clientError (code : String)
  | otherError
deriving DecidableEq

/-- How a run of the polling loop can end, given finitely many describe
outcomes: still looping when the outcomes ran out, `deleted` when the loop
hit `break`, `raised` when an exception escaped the `try/except ClientError`. -/
inductive LoopOutcome where
  | running
  | deleted
  | raised
deriving DecidableEq

/-- The polling loop of the cleanup cell, as the way it ends on a list of
successive `describe_endpoint` outcomes.  A normal return loops again (after
printing and sleeping); a `ClientError` breaks exactly when its code is
`ValidationException` and otherwise falls out of the `if` back into the loop;
any other exception is not caught by `except ClientError` and escapes. -/
def cleanupOutcome : List SdkOutcome → LoopOutcome
  | [] => .running
  | SdkOutcome.success :: rs => cleanupOutcome rs
  | SdkOutcome.clientError c :: rs =>
      if c = "ValidationException" then .deleted else cleanupOutcome rs
  | SdkOutcome.otherError :: _ => .raised

/-- Observable events of the cleanup cell's loop body, in program order. -/
inductive Event where
  | describeCall
  | printWait
  | sleep (secs : Nat)
  | breakLoop
  | raiseExc
deriving DecidableEq

/-- The event trace of the polling loop on a list of successive
`describe_endpoint` outcomes.  After a successful describe the body prints and
sleeps 30 seconds; a `ValidationException` `ClientError` breaks; any other
`ClientError` re-enters the loop immediately (the `except` body does nothing
for it); a non-`ClientError` exception aborts the loop. -/
def cleanupTrace : List SdkOutcome → List Event
  | [] => []
  | SdkOutcome.success :: rs =>
      Event.describeCall :: Event.printWait :: Event.sleep 30 :: cleanupTrace rs
  | SdkOutcome.clientError c :: rs =>
      if c = "ValidationException" then [Event.describeCall, Event.breakLoop]
      else Event.describeCall :: cleanupTrace rs
  | SdkOutcome.otherError :: _ => [Event.describeCall, Event.raiseExc]

/-- A describe outcome after which the loop keeps polling: a normal return, or
a swallowed `ClientError` whose code is not `ValidationException`. -/
def continuesB : SdkOutcome → Bool
  | SdkOutcome.success => true
  | SdkOutcome.clientError c => decide (c ≠ "ValidationException")
  | SdkOutcome.otherError => false

/-- Scans an event trace and checks that strictly between any two consecutive
`describeCall` events there is a 30-second sleep.  The state is `none` before
the first call and `some sawSleep` afterwards. -/
def sleepsBetweenCalls : List Event → Option Bool → Bool
  | [], _ => true
  | Event.describeCall :: es, none => sleepsBetweenCalls es (some false)
  | Event.describeCall :: es, some sawSleep =>
      sawSleep && sleepsBetweenCalls es (some false)
  | Event.sleep n :: es, some b =>
      sleepsBetweenCalls es (some (b || decide (n = 30)))
  | _ :: es, st => sleepsBetweenCalls es st

/-- C1: in the cleanup cell the loop repeatedly calls `describe_endpoint`; it
breaks out if and only if one of those calls raises the "not found" error (a
`ClientError` coded `ValidationException`), every earlier call having returned
normally or raised a swallowed `ClientError`; after every successful call the
loop prints, sleeps 30 seconds and, while it keeps running, its next event is
another `describe_endpoint` call. -/
theorem cleanup_loop_exit_iff_not_found :
    (∀ rs : List SdkOutcome,
      cleanupOutcome rs = LoopOutcome.deleted ↔
        ∃ pre post, rs = pre ++ SdkOutcome.clientError "ValidationException" :: post ∧
          ∀ r ∈ pre, continuesB r = true) ∧
    (∀ rest, cleanupTrace (SdkOutcome.success :: rest) =
      Event.describeCall :: Event.printWait :: Event.sleep 30 :: cleanupTrace rest) ∧
    (∀ rs : List SdkOutcome, rs ≠ [] → (cleanupTrace rs).head? = some Event.describeCall) := by
  refine ⟨?_, fun rest => rfl, ?_⟩
  · intro rs
    induction rs with
    | nil =>
      constructor
      · intro h; exact absurd h (by decide)
      · rintro ⟨pre, post, habs, -⟩
        exact absurd habs (by simp)
    | cons r rs ih =>
      cases r with
      | success =>
        rw [show cleanupOutcome (SdkOutcome.success :: rs) = cleanupOutcome rs from rfl, ih]
        constructor
        · rintro ⟨pre, post, rfl, hpre⟩
          refine ⟨SdkOutcome.success :: pre, post, rfl, ?_⟩
          intro r hr
          rcases List.mem_cons.mp hr with rfl | hr
          · rfl
          · exact hpre r hr
        · rintro ⟨pre, post, heq, hpre⟩
          cases pre with
          | nil => simp at heq
          | cons a pre =>
            obtain ⟨rfl, htl⟩ : a = SdkOutcome.success ∧ rs = pre ++ _ :: post := by
              constructor
              · exact (List.cons.injEq _ _ _ _ ▸ heq).1.symm
              · exact (List.cons.injEq _ _ _ _ ▸ heq).2
            exact ⟨pre, post, htl, fun r hr => hpre r (List.mem_cons_of_mem _ hr)⟩
      | clientError c =>
        by_cases hc : c = "ValidationException"
        · subst hc
          rw [show cleanupOutcome (SdkOutcome.clientError "ValidationException" :: rs) =
                LoopOutcome.deleted from by simp [cleanupOutcome]]
          simp only [true_iff]
          exact ⟨[], rs, rfl, by simp⟩
        · rw [show cleanupOutcome (SdkOutcome.clientError c :: rs) = cleanupOutcome rs from
                by simp [cleanupOutcome, hc], ih]
          constructor
          · rintro ⟨pre, post, rfl, hpre⟩
            refine ⟨SdkOutcome.clientError c :: pre, post, rfl, ?_⟩
            intro r hr
            rcases List.mem_cons.mp hr with rfl | hr
            · simp [continuesB, hc]
            · exact hpre r hr
          · rintro ⟨pre, post, heq, hpre⟩
            cases pre with
            | nil =>
              exfalso
              have : SdkOutcome.clientError c = SdkOutcome.clientError "ValidationException" :=
                (List.cons.injEq _ _ _ _ ▸ heq).1
              exact hc (SdkOutcome.clientError.injEq _ _ ▸ this)
            | cons a pre =>
              refine ⟨pre, post, (List.cons.injEq _ _ _ _ ▸ heq).2,
                fun r hr => hpre r (List.mem_cons_of_mem _ hr)⟩
      | otherError =>
        rw [show cleanupOutcome (SdkOutcome.otherError :: rs) = LoopOutcome.raised from rfl]
        constructor
        · intro h; exact absurd h (by decide)
        · rintro ⟨pre, post, heq, hpre⟩
          cases pre with
          | nil => simp at heq
          | cons a pre =>
            have ha : a = SdkOutcome.otherError := by
              exact ((List.cons.injEq _ _ _ _ ▸ heq).1).symm
            have := hpre a (List.mem_cons_self a pre)
            rw [ha] at this
            exact absurd this (by decide)
  · intro rs h
    cases rs with
    | nil => exact absurd rfl h
    | cons r rest =>
      cases r with
      | success => rfl
      | clientError c =>
        by_cases hc : c = "ValidationException" <;> simp [cleanupTrace, hc]
      | otherError => rfl

/-- C9: the loop breaks (so the cleanup cell moves on) only when some
`describe_endpoint` call in the consumed sequence raised a `ClientError` coded
exactly `ValidationException`; a `ClientError` with any other code is
swallowed and the next describe call follows immediately, with no sleep event
in between; an exception that is not a `ClientError` escapes the loop. -/
theorem poll_loop_termination_details :
    (∀ rs : List SdkOutcome, cleanupOutcome rs = LoopOutcome.deleted →
      ∃ r ∈ rs, r = SdkOutcome.clientError "ValidationException") ∧
    (∀ (c : String) (rest : List SdkOutcome), c ≠ "ValidationException" →
      cleanupTrace (SdkOutcome.clientError c :: rest) = Event.describeCall :: cleanupTrace rest ∧
      cleanupOutcome (SdkOutcome.clientError c :: rest) = cleanupOutcome rest) ∧
    (∀ rest : List SdkOutcome,
      cleanupOutcome (SdkOutcome.otherError :: rest) = LoopOutcome.raised) := by
  refine ⟨?_, ?_, fun rest => rfl⟩
  · intro rs
    induction rs with
    | nil => intro h; exact absurd h (by decide)
    | cons r rs ih =>
      intro h
      cases r with
      | success =>
        obtain ⟨r, hr, hr2⟩ := ih h
        exact ⟨r, List.mem_cons_of_mem _ hr, hr2⟩
      | clientError c =>
        by_cases hc : c = "ValidationException"
        · subst hc
          exact ⟨SdkOutcome.clientError "ValidationException", List.mem_cons_self _ _, rfl⟩
        · rw [show cleanupOutcome (SdkOutcome.clientError c :: rs) = cleanupOutcome rs from
                by simp [cleanupOutcome, hc]] at h
          obtain ⟨r, hr, hr2⟩ := ih h
          exact ⟨r, List.mem_cons_of_mem _ hr, hr2⟩
      | otherError => exact absurd h (by simp [cleanupOutcome])
  · intro c rest hc
    exact ⟨by simp [cleanupTrace, hc], by simp [cleanupOutcome, hc]⟩

/-- C7 fails as stated: it is not the case that between every two consecutive
`describe_endpoint` calls the loop sleeps 30 seconds.  On the outcome sequence
where the first describe raises a throttling `ClientError` and the second
returns normally, the two describe calls are adjacent in the trace with no
sleep between them. -/
theorem poll_sleep_every_iteration_cx :
    ¬ (∀ rs : List SdkOutcome,
        sleepsBetweenCalls (cleanupTrace rs) none = true) := by
  intro h
  exact absurd (h [SdkOutcome.clientError "ThrottlingException", SdkOutcome.success]) (by decide)

/-- Helper for the amended C7: on outcome sequences where every describe call
returns normally, the trace does sleep 30 seconds between consecutive calls,
whatever non-failing scan state it starts in. -/
theorem sleepsBetweenCalls_of_success (rs : List SdkOutcome)
    (h : ∀ r ∈ rs, r = SdkOutcome.success) (st : Option Bool)
    (hst : st = none ∨ st = some true) :
    sleepsBetweenCalls (cleanupTrace rs) st = true := by
  induction rs generalizing st with
  | nil => simp [cleanupTrace, sleepsBetweenCalls]
  | cons r rs ih =>
    have hr : r = SdkOutcome.success := h r (List.mem_cons_self r rs)
    subst hr
    have htail : ∀ r ∈ rs, r = SdkOutcome.success :=
      fun r hr => h r (List.mem_cons_of_mem _ hr)
    rcases hst with rfl | rfl <;>
      simpa [cleanupTrace, sleepsBetweenCalls] using ih htail (some true) (Or.inr rfl)

/-- C7 amended: the 30-second sleep separates consecutive `describe_endpoint`
calls only when the earlier call succeeded — after a successful describe the
body prints and sleeps 30 seconds before anything else, and on a run where
every describe succeeds every pair of consecutive calls has a sleep between
them — but after a swallowed `ClientError` (code other than
`ValidationException`) the next describe call follows immediately with no
sleep. -/
theorem poll_sleep_amended :
    (∀ rest, cleanupTrace (SdkOutcome.success :: rest) =
      Event.describeCall :: Event.printWait :: Event.sleep 30 :: cleanupTrace rest) ∧
    (∀ (c : String) (rest : List SdkOutcome), c ≠ "ValidationException" →
      cleanupTrace (SdkOutcome.clientError c :: rest) =
        Event.describeCall :: cleanupTrace rest) ∧
    (∀ rs : List SdkOutcome, (∀ r ∈ rs, r = SdkOutcome.success) →
      sleepsBetweenCalls (cleanupTrace rs) none = true) := by
  refine ⟨fun rest => rfl, ?_, ?_⟩
  · intro c rest hc
    simp [cleanupTrace, hc]
  · intro rs h
    exact sleepsBetweenCalls_of_success rs h none (Or.inl rfl)

/-! ## The notebooks' SDK operations and their exception handling

The deployment notebook issues its SageMaker lifecycle operations in notebook
order; the data-processing notebook runs one processing job.  Each operation
is either a bare statement, a statement inside a `try/except` with a specific
handler, or the polling loop above.  The two handlers in the source are

    try: sagemaker_client.create_model_package_group(...)
    except sagemaker_client.exceptions.ResourceInUse: print(...)

and

    try: sagemaker_client.delete_endpoint_config(...)
    except sagemaker_client.exceptions.ClientError as e:
        if e.response['Error']['Code'] == 'ValidationException': print(...)
-/

/-- The SageMaker lifecycle operations the notebooks call. -/
inductive Op where
  | createModel
  | createModelPackageGroup
  | registerModelPackage
  | listModelPackages
  | createEndpointConfig
  | createEndpoint
  | invokeEndpoint
  | deleteEndpoint
  | describeEndpoint
  | deleteEndpointConfig
  | runProcessingJob
deriving DecidableEq

/-- The two `except` clauses appearing in the deployment notebook:
`ResourceInUse` (a `ClientError` subclass with that code) and the bare
`ClientError` clause (which swallows every `ClientError`, whatever its code —
the `if` inside it only chooses whether to print). -/
inductive CatchSpec where
  | resourceInUse
  | anyClientError
deriving DecidableEq

/-- Which call outcomes a given `except` clause catches. -/
def catchesOutcome : CatchSpec → SdkOutcome → Bool
  | CatchSpec.resourceInUse, SdkOutcome.clientError c => c == "ResourceInUse"
  | CatchSpec.anyClientError, SdkOutcome.clientError _ => true
  | _, _ => false

/-- A notebook statement that issues an SDK operation: bare, wrapped in a
`try/except`, or the polling loop (operation, sleep seconds, breaking error
code). -/
inductive Stmt where
  | direct (op : Op)
  | guarded (op : Op) (spec : CatchSpec)
  | poll (op : Op) (sleepSecs : Nat) (exitCode : String)
deriving DecidableEq

/-- The operation a statement issues. -/
def stmtOp : Stmt → Op
  | Stmt.direct o => o
  | Stmt.guarded o _ => o
  | Stmt.poll o _ _ => o

/-- Whether a statement is the polling loop. -/
def isPollStmt : Stmt → Bool
  | Stmt.poll _ _ _ => true
  | _ => false

/-- What happens to the notebook when a statement's SDK call has a given
outcome: the cell completes, the loop keeps polling, or the exception
propagates out of the notebook code. -/
inductive StepResult where
  | completed
  | looping
  | raised (e : SdkOutcome)
deriving DecidableEq

/-- One statement's behaviour on one outcome of its SDK call, read off the
source: a bare statement propagates every exception; a guarded statement
completes when its `except` clause catches the exception and propagates it
otherwise; the polling loop keeps polling on a normal return or a swallowed
`ClientError`, breaks on its exit code, and lets anything else escape. -/
def stmtStep : Stmt → SdkOutcome → StepResult
  | Stmt.direct _, SdkOutcome.success => .completed
  | Stmt.direct _, e => .raised e
  | Stmt.guarded _ _, SdkOutcome.success => .completed
  | Stmt.guarded _ spec, e => if catchesOutcome spec e then .completed else .raised e
  | Stmt.poll _ _ _, SdkOutcome.success => .looping
  | Stmt.poll _ _ exitCode, SdkOutcome.clientError c =>
      if c = exitCode then .completed else .looping
  | Stmt.poll _ _ _, SdkOutcome.otherError => .raised SdkOutcome.otherError

/-- The deployment notebook's SageMaker statements, in notebook (cell) order:
`Model(...).create()`; `create_model_package_group` inside
`try/except ResourceInUse`; `model.register(...)`; `list_model_packages`;
`create_endpoint_config`; `create_endpoint`; `invoke_endpoint`;
`delete_endpoint`; the `describe_endpoint` polling loop (sleep 30, break on
`ValidationException`); `delete_endpoint_config` inside
`try/except ClientError`. -/
def deploymentNotebook : List Stmt :=
  [Stmt.direct Op.createModel,
   Stmt.guarded Op.createModelPackageGroup CatchSpec.resourceInUse,
   Stmt.direct Op.registerModelPackage,
   Stmt.direct Op.listModelPackages,
   Stmt.direct Op.createEndpointConfig,
   Stmt.direct Op.createEndpoint,
   Stmt.direct Op.invokeEndpoint,
   Stmt.direct Op.deleteEndpoint,
   Stmt.poll Op.describeEndpoint 30 "ValidationException",
   Stmt.guarded Op.deleteEndpointConfig CatchSpec.anyClientError]

/-- The data-processing notebook's SageMaker statement: `processor.run(...)`,
bare. -/
def processingNotebook : List Stmt :=
  [Stmt.direct Op.runProcessingJob]

/-- All SageMaker statements of the repository's two notebooks. -/
def notebookStmts : List Stmt := deploymentNotebook ++ processingNotebook

/-- C2 fails as stated: it is not the case that every operation outside the
polling loop leaves every failure of its SDK call uncaught.  The
`create_model_package_group` statement sits in a `try/except ResourceInUse`
and completes when that call fails with a `ResourceInUse` `ClientError`. -/
theorem notebook_failures_unhandled_cx :
    ¬ (∀ s ∈ notebookStmts, isPollStmt s = false →
        ∀ e : SdkOutcome, e ≠ SdkOutcome.success → stmtStep s e = StepResult.raised e) := by
  intro h
  exact absurd
    (h (Stmt.guarded Op.createModelPackageGroup CatchSpec.resourceInUse) (by decide) (by decide)
      (SdkOutcome.clientError "ResourceInUse") (by decide))
    (by decide)

/-- C2 amended: every notebook operation outside the polling loop propagates
every failure of its SDK call, except the two guarded statements:
`create_model_package_group`, whose handler catches exactly the
`ResourceInUse` `ClientError` (any other failure propagates), and
`delete_endpoint_config`, whose handler catches every `ClientError` whatever
its code (a non-`ClientError` exception still propagates). -/
theorem notebook_failures_unhandled_amended :
    (∀ s ∈ notebookStmts,
      s ≠ Stmt.guarded Op.createModelPackageGroup CatchSpec.resourceInUse →
      s ≠ Stmt.guarded Op.deleteEndpointConfig CatchSpec.anyClientError →
      isPollStmt s = false →
      ∀ e : SdkOutcome, e ≠ SdkOutcome.success → stmtStep s e = StepResult.raised e) ∧
    (∀ c : String,
      stmtStep (Stmt.guarded Op.createModelPackageGroup CatchSpec.resourceInUse)
          (SdkOutcome.clientError c) =
        if c = "ResourceInUse" then StepResult.completed
        else StepResult.raised (SdkOutcome.clientError c)) ∧
    stmtStep (Stmt.guarded Op.createModelPackageGroup CatchSpec.resourceInUse)
        SdkOutcome.otherError = StepResult.raised SdkOutcome.otherError ∧
    (∀ c : String,
      stmtStep (Stmt.guarded Op.deleteEndpointConfig CatchSpec.anyClientError)
          (SdkOutcome.clientError c) = StepResult.completed) ∧
    stmtStep (Stmt.guarded Op.deleteEndpointConfig CatchSpec.anyClientError)
        SdkOutcome.otherError = StepResult.raised SdkOutcome.otherError := by
  refine ⟨?_, ?_, rfl, ?_, rfl⟩
  · intro s hs h1 h2 h3 e he
    simp only [notebookStmts, deploymentNotebook, processingNotebook, List.mem_append,
      List.mem_cons, List.mem_singleton, List.not_mem_nil, or_false] at hs
    rcases hs with (rfl | rfl | rfl | rfl | rfl | rfl | rfl | rfl | rfl | rfl) | rfl
    all_goals first
      | (exact absurd rfl h1)
      | (exact absurd rfl h2)
      | (exact absurd h3 (by decide))
      | (cases e with
          | success => exact absurd rfl he
          | clientError c => rfl
          | otherError => rfl)
  · intro c
    by_cases hc : c = "ResourceInUse" <;> simp [stmtStep, catchesOutcome, hc]
  · intro c
    rfl

/-- C6: the deployment notebook, run top to bottom, issues its SageMaker
operations in exactly this order: create model, create model package group,
register model package, list model packages, create endpoint config, create
endpoint, invoke endpoint, delete endpoint, then the `describe_endpoint`
polling, then delete endpoint config. -/
theorem deployment_call_order :
    deploymentNotebook.map stmtOp =
      [Op.createModel, Op.createModelPackageGroup, Op.registerModelPackage,
       Op.listModelPackages, Op.createEndpointConfig, Op.createEndpoint,
       Op.invokeEndpoint, Op.deleteEndpoint, Op.describeEndpoint,
       Op.deleteEndpointConfig] := rfl

/-! ## The processing script (`preprocessing_script.py`, data-processing notebook)

The `%%writefile` cell of the data-processing notebook emits a script that
loads a CSV into a dataframe and applies, in order: a column drop, two
`pd.to_datetime` conversions, `df.dropna(thresh=int(df.shape[1] * 0.7))`,
mean imputation of the numeric columns with `SimpleImputer(strategy='mean')`,
target encoding of `postcode` by the per-postcode mean of
`saleEstimate_currentPrice`, a drop of the `postcode` column, and
`pd.get_dummies` one-hot encoding; then it writes the result.  The step
sequence is embedded as a list; the steps the individual claims are about get
their dataframe semantics below. -/

/-- A dataframe-transforming statement of the processing script.  The
`tryExcept` constructor stands for a statement wrapped in a `try/except`
handler; the script contains none. -/
inductive PStep where
  | dropColumns (cols : List String)
  | toDatetime (col : String)
  | dropSparseRows
  | imputeMeans
  | targetEncodePostcode
  | oneHotEncode
  | tryExcept (inner : PStep)
deriving DecidableEq

/-- The dataframe transformations of `preprocessing_script.py`, in source
order (the surrounding `read_csv` and `to_csv` are I/O, not transformations). -/
def preprocessingScript : List PStep :=
  [PStep.dropColumns ["fullAddress", "rentEstimate_lowerPrice", "rentEstimate_currentPrice",
      "rentEstimate_upperPrice", "saleEstimate_lowerPrice", "saleEstimate_upperPrice",
      "outcode", "saleEstimate_ingestedAt"],
   PStep.toDatetime "saleEstimate_valueChange.saleDate",
   PStep.toDatetime "history_date",
   PStep.dropSparseRows,
   PStep.imputeMeans,
   PStep.targetEncodePostcode,
   PStep.dropColumns ["postcode"],
   PStep.oneHotEncode]

/-- The four step kinds the claim allows: drop columns, impute means, one-hot
encode, target-encode the high-cardinality column. -/
def isClaimedCleanupStep : PStep → Bool
  | PStep.dropColumns _ => true
  | PStep.imputeMeans => true
  | PStep.targetEncodePostcode => true
  | PStep.oneHotEncode => true
  | _ => false

/-- Whether a script statement is wrapped in a `try/except` handler. -/
def isTryExceptStep : PStep → Bool
  | PStep.tryExcept _ => true
  | _ => false

/-- C3 fails as stated: the processing script does not consist only of the
four claimed cleanup kinds — it also converts two date columns with
`pd.to_datetime` and removes sparse rows with `dropna`, neither of which is a
drop-columns, impute-means, one-hot-encode or target-encode step. -/
theorem preprocessing_steps_cx :
    ¬ (∀ s ∈ preprocessingScript, isClaimedCleanupStep s = true) := by
  decide

/-- C3 amended: every transformation of the processing script is one of the
four claimed cleanup kinds (drop columns, impute means, one-hot encode,
target-encode the postcode column) or one of the three further steps the
script performs — the two `pd.to_datetime` conversions and the sparse-row
`dropna` — and no statement of the script carries a `try/except` failure
handler of its own. -/
theorem preprocessing_steps_amended :
    (∀ s ∈ preprocessingScript,
      isClaimedCleanupStep s = true ∨
      s = PStep.toDatetime "saleEstimate_valueChange.saleDate" ∨
      s = PStep.toDatetime "history_date" ∨
      s = PStep.dropSparseRows) ∧
    (∀ s ∈ preprocessingScript, isTryExceptStep s = false) := by
  constructor <;> decide

/-! ## Dataframe cell model (for the imputation and row-filter steps) -/

/-- One dataframe cell: a numeric value, a string value, or missing (NaN). -/
inductive Cell where
  | num (q : ℚ)
  | str (s : String)
  | na
deriving DecidableEq

/-- A named dataframe column with its dtype class (`select_dtypes
(include=['number'])` selects exactly the columns with `isNumeric = true`)
and its cells, top to bottom. -/
structure Column where
  name : String
  isNumeric : Bool
  cells : List Cell
deriving DecidableEq

/-- Fallback column for out-of-range indexing in statements. -/
def defaultColumn : Column := ⟨"", false, []⟩

/-- Arithmetic mean of a list of rationals. -/
def mean (xs : List ℚ) : ℚ := xs.sum / (xs.length : ℚ)

/-- The numeric values among a column's cells (its non-missing entries). -/
def cellNums (cs : List Cell) : List ℚ :=
  cs.filterMap (fun c => match c with | Cell.num q => some q | _ => none)

/-- Mean of a column's non-missing numeric values (`SimpleImputer
(strategy='mean')` fits this statistic per column). -/
def colMean (c : Column) : ℚ := mean (cellNums c.cells)

/-- What the fitted imputer does to one cell: a missing cell becomes the
column mean, any other cell is returned unchanged. -/
def imputeCell (m : ℚ) : Cell → Cell
  | Cell.na => Cell.num m
  | c => c

/-- `fit_transform` of the mean imputer on one column. -/
def imputeColumn (c : Column) : Column :=
  { c with cells := c.cells.map (imputeCell (colMean c)) }

/-- The imputation step applied to one column of the frame: the assignment
`df[numeric_cols] = num_imputer.fit_transform(df[numeric_cols])` touches
exactly the columns `select_dtypes(include=['number'])` selected. -/
def imputeIfNumeric (c : Column) : Column :=
  if c.isNumeric then imputeColumn c else c

/-- The whole mean-imputation step of the processing script on a frame. -/
def imputeMeansFrame (f : List Column) : List Column :=
  f.map imputeIfNumeric

/-- Positional indexing into a mapped list, below the length. -/
theorem getD_map_of_lt {α β : Type} (g : α → β) (l : List α) (i : ℕ)
    (h : i < l.length) (d : α) (d' : β) :
    (l.map g).getD i d' = g (l.getD i d) := by
  induction l generalizing i with
  | nil => simp at h
  | cons a l ih =>
    cases i with
    | zero => rfl
    | succ n => exact ih n (by simpa using h)

/-- An in-range `getD` is a member of the list. -/
theorem getD_mem_of_lt {α : Type} (l : List α) (i : ℕ) (h : i < l.length) (d : α) :
    l.getD i d ∈ l := by
  induction l generalizing i with
  | nil => simp at h
  | cons a l ih =>
    cases i with
    | zero => exact List.mem_cons_self _ _
    | succ n => exact List.mem_cons_of_mem _ (ih n (by simpa using h))

/-- C4: in the mean-imputation step, a non-numeric column is left untouched,
and in every numeric column each missing cell becomes the arithmetic mean of
that column's non-missing values while each non-missing numeric cell is
unchanged; the frame keeps its column count and each column its name and
row count. -/
theorem mean_imputation_correct (f : List Column) (i j : ℕ)
    (hi : i < f.length) (hj : j < (f.getD i defaultColumn).cells.length) :
    (imputeMeansFrame f).length = f.length ∧
    ((f.getD i defaultColumn).isNumeric = false →
      (imputeMeansFrame f).getD i defaultColumn = f.getD i defaultColumn) ∧
    ((f.getD i defaultColumn).isNumeric = true →
      ((imputeMeansFrame f).getD i defaultColumn).name = (f.getD i defaultColumn).name ∧
      ((imputeMeansFrame f).getD i defaultColumn).cells.length =
        (f.getD i defaultColumn).cells.length ∧
      ((f.getD i defaultColumn).cells.getD j (Cell.str "") = Cell.na →
        ((imputeMeansFrame f).getD i defaultColumn).cells.getD j (Cell.str "") =
          Cell.num (colMean (f.getD i defaultColumn))) ∧
      (∀ q : ℚ, (f.getD i defaultColumn).cells.getD j (Cell.str "") = Cell.num q →
        ((imputeMeansFrame f).getD i defaultColumn).cells.getD j (Cell.str "") =
          Cell.num q)) := by
  have hmap : (imputeMeansFrame f).getD i defaultColumn =
      imputeIfNumeric (f.getD i defaultColumn) :=
    getD_map_of_lt imputeIfNumeric f i hi defaultColumn defaultColumn
  refine ⟨by simp [imputeMeansFrame], ?_, ?_⟩
  · intro hnum
    rw [hmap]
    simp only [imputeIfNumeric, hnum]
    exact if_neg (by simp)
  · intro hnum
    have h2 : (imputeMeansFrame f).getD i defaultColumn =
        imputeColumn (f.getD i defaultColumn) := by
      rw [hmap]
      simp only [imputeIfNumeric, hnum]
      exact if_pos trivial
    rw [h2]
    refine ⟨rfl, by simp [imputeColumn], ?_, ?_⟩
    · intro hna
      have h3 := getD_map_of_lt (imputeCell (colMean (f.getD i defaultColumn)))
        (f.getD i defaultColumn).cells j hj (Cell.str "") (Cell.str "")
      rw [show (imputeColumn (f.getD i defaultColumn)).cells =
            (f.getD i defaultColumn).cells.map
              (imputeCell (colMean (f.getD i defaultColumn))) from rfl, h3, hna]
      rfl
    · intro q hq
      have h3 := getD_map_of_lt (imputeCell (colMean (f.getD i defaultColumn)))
        (f.getD i defaultColumn).cells j hj (Cell.str "") (Cell.str "")
      rw [show (imputeColumn (f.getD i defaultColumn)).cells =
            (f.getD i defaultColumn).cells.map
              (imputeCell (colMean (f.getD i defaultColumn))) from rfl, h3, hq]
      rfl

/-- A concrete frame for instantiating the imputation theorem: one numeric
column with a missing cell, one non-numeric column. -/
def sampleFrame : List Column :=
  [⟨"floorAreaSqM", true, [Cell.num 1, Cell.na, Cell.num 3]⟩,
   ⟨"tenure", false, [Cell.str "Freehold", Cell.str "Leasehold", Cell.na]⟩]

/-- Witness for C4: on the sample frame, the missing cell of the numeric
column is imputed to that column's mean of non-missing values. -/
theorem mean_imputation_witness :
    ((imputeMeansFrame sampleFrame).getD 0 defaultColumn).cells.getD 1 (Cell.str "") =
      Cell.num (colMean (sampleFrame.getD 0 defaultColumn)) :=
  ((mean_imputation_correct sampleFrame 0 1 (by decide) (by decide)).2.2
    (by decide)).2.2.1 (by decide)

/-! ## The sparse-row filter (`df.dropna(thresh=int(df.shape[1] * 0.7))`) -/

/-- Number of non-missing cells in a row. -/
def nonNullCount (r : List Cell) : ℕ :=
  (r.filter (fun c => decide (c ≠ Cell.na))).length

/-- Floor of the base-2 logarithm of `n` (0 for `n ≤ 1`), with the first
argument as recursion fuel; `natLog2F n n` is the bit position of the most
significant bit of `n ≥ 1`. -/
def natLog2F : ℕ → ℕ → ℕ
  | 0, _ => 0
  | fuel + 1, n => if 2 ≤ n then natLog2F fuel (n / 2) + 1 else 0

/-- Rounds `n / d` (with `d > 0`) to the nearest integer, ties to the even
neighbour — the rounding IEEE-754 round-to-nearest-even performs on the
significand. -/
def divRoundHalfEven (n d : ℕ) : ℕ :=
  let q := n / d
  let r := n % d
  if 2 * r < d then q
  else if d < 2 * r then q + 1
  else if q % 2 = 0 then q else q + 1

/-- Floor of the base-2 logarithm of the positive rational `p / q`: from the
bit lengths `a` of `p` and `b` of `q`, the value lies in
`(2 ^ (a - b - 1), 2 ^ (a - b + 1))`, and the comparison picks the right of
the two candidates. -/
def ratFloorLog2 (p q : ℕ) : ℤ :=
  let a := natLog2F p p
  let b := natLog2F q q
  if q * 2 ^ a ≤ p * 2 ^ b then (a : ℤ) - b else ((a : ℤ) - b) - 1

/-- The IEEE-754 binary64 value nearest to the positive rational `p / q`, as
a pair (significand, binary exponent): the value is scaled by
`2 ^ (52 - floor(log2 (p/q)))` into `[2^52, 2^53)`, and the scaled value is
rounded to an integer significand, ties to even.  Normal range only (no
overflow or subnormals — the values in this file are around 0.7 to a few
hundred); `p = 0` yields a zero significand. -/
def roundRatToDouble (p q : ℕ) : ℕ × ℤ :=
  let t : ℤ := 52 - ratFloorLog2 p q
  let m : ℕ :=
    if 0 ≤ t then divRoundHalfEven (p * 2 ^ t.toNat) q
    else divRoundHalfEven p (q * 2 ^ (-t).toNat)
  (m, -t)

/-- The binary64 nearest 0.7 — the value of the literal `0.7` in the script. -/
def double07 : ℕ × ℤ := roundRatToDouble 7 10

/-- The binary64 product of the exact natural `n` (an `int` below `2^53`
converts to binary64 exactly) with the binary64 value `d`: the exact rational
product, rounded once to binary64 — IEEE multiplication semantics. -/
def doubleMulNat (n : ℕ) (d : ℕ × ℤ) : ℕ × ℤ :=
  if 0 ≤ d.2 then roundRatToDouble (n * d.1 * 2 ^ d.2.toNat) 1
  else roundRatToDouble (n * d.1) (2 ^ (-d.2).toNat)

/-- Python's `int()` on a nonnegative binary64 value: truncation toward zero,
which for a nonnegative `m * 2 ^ e` is exact for `e ≥ 0` and floor division
by `2 ^ (-e)` otherwise. -/
def doubleToInt (d : ℕ × ℤ) : ℕ :=
  if 0 ≤ d.2 then d.1 * 2 ^ d.2.toNat else d.1 / 2 ^ (-d.2).toNat

/-- The `dropna` threshold of the script: `int(df.shape[1] * 0.7)` as Python
evaluates it — the column count times the binary64 value of `0.7`, the
product rounded to binary64, then truncated toward zero. -/
def dropSparseThresh (ncols : ℕ) : ℕ :=
  doubleToInt (doubleMulNat ncols double07)

/-- The threshold the claim states: the floor of exactly 0.7 times the column
count, in exact real arithmetic (the claim's words, kept separate for
comparison — the script computes `int(df.shape[1] * 0.7)` in binary64
arithmetic instead, embedded as `dropSparseThresh`). -/
def exactSparseThresh (ncols : ℕ) : ℕ :=
  Nat.floor ((0.7 : ℚ) * (ncols : ℚ))

/-- The claim's exact threshold in integer arithmetic. -/
theorem exactSparseThresh_eq (ncols : ℕ) : exactSparseThresh ncols = 7 * ncols / 10 := by
  unfold exactSparseThresh
  have h07 : (0.7 : ℚ) = 7 / 10 := by norm_num
  have h : (0.7 : ℚ) * (ncols : ℚ) = ((7 * ncols : ℕ) : ℚ) / ((10 : ℕ) : ℚ) := by
    rw [h07]; push_cast; ring
  rw [h, Nat.floor_div_nat, Nat.floor_natCast]

/-- The row-filter step: keep exactly the rows with at least the threshold
many non-missing values (`dropna` with `thresh` requires that many non-NA
values to keep a row). -/
def dropSparseRowsStep (ncols : ℕ) (rows : List (List Cell)) : List (List Cell) :=
  rows.filter (fun r => decide (dropSparseThresh ncols ≤ nonNullCount r))

/-- C10 fails as stated: on a frame of 90 columns Python's
`int(90 * 0.7)` is 62 (the binary64 product is just below 63), not
`floor(0.7 * 90) = 63`, so a row with 62 non-null values is retained although
it has fewer than `floor(0.7 * ncols)` of them.  The binary64 value of 0.7
is `6305039478318694 * 2 ^ (-53)`. -/
theorem sparse_row_filter_cx :
    (List.replicate 62 (Cell.num 1) ++ List.replicate 28 Cell.na) ∈
      dropSparseRowsStep 90 [List.replicate 62 (Cell.num 1) ++ List.replicate 28 Cell.na] ∧
    nonNullCount (List.replicate 62 (Cell.num 1) ++ List.replicate 28 Cell.na) <
      exactSparseThresh 90 ∧
    dropSparseThresh 90 = 62 ∧ exactSparseThresh 90 = 63 ∧
    double07 = (6305039478318694, -53) := by
  refine ⟨by decide, ?_, by decide, ?_, by decide⟩
  · rw [exactSparseThresh_eq]
    decide
  · rw [exactSparseThresh_eq]

set_option maxRecDepth 8000 in
/-- C10 amended: the row-filter step keeps a row iff it has at least
`int(ncols * 0.7)` non-null values as Python computes it in binary64
arithmetic (`dropSparseThresh`), and passes retained rows through unchanged
and in order (the output is a sublist of the input); that threshold agrees
with the claimed exact `floor(0.7 * ncols)` for every width below 90, but at
width 90 the binary64 product falls just below the integer and the code's
threshold is one less than the claimed one. -/
theorem sparse_row_filter_correct (ncols : ℕ) (rows : List (List Cell)) :
    (dropSparseRowsStep ncols rows).Sublist rows ∧
    (∀ r, r ∈ dropSparseRowsStep ncols rows ↔
      r ∈ rows ∧ dropSparseThresh ncols ≤ nonNullCount r) ∧
    (∀ n, n < 90 → dropSparseThresh n = exactSparseThresh n) ∧
    dropSparseThresh 90 + 1 = exactSparseThresh 90 := by
  refine ⟨List.filter_sublist _, ?_, ?_, ?_⟩
  · intro r
    simp [dropSparseRowsStep, List.mem_filter]
  · have h : ∀ n, n < 90 → dropSparseThresh n = 7 * n / 10 := by decide
    intro n hn
    rw [exactSparseThresh_eq]
    exact h n hn
  · rw [exactSparseThresh_eq]
    decide

/-! ## Target encoding of `postcode`

    target_mean = df.groupby('postcode')['saleEstimate_currentPrice'].mean()
    df['Postcode_Encoded'] = df['postcode'].map(target_mean)
    df = df.drop(columns=['postcode'])

A row is embedded with its `postcode`, its `saleEstimate_currentPrice` and
its remaining cells; the output row type has the new `Postcode_Encoded`
column (optional: `.map` yields NaN for a key missing from the series) and no
postcode field, since the postcode column is dropped. -/

/-- A dataframe row at the target-encoding step. -/
structure HRow where
  postcode : String
  price : ℚ
  rest : List Cell
deriving DecidableEq

/-- A row after the target-encoding step: the postcode column is gone and
`Postcode_Encoded` is present. -/
structure HRowEncoded where
  price : ℚ
  rest : List Cell
  postcodeEncoded : Option ℚ
deriving DecidableEq

/-- Fallback rows for out-of-range indexing in statements. -/
def defaultHRow : HRow := ⟨"", 0, []⟩

/-- Fallback encoded row for out-of-range indexing in statements. -/
def defaultHRowEncoded : HRowEncoded := ⟨0, [], none⟩

/-- The `saleEstimate_currentPrice` values of the rows with a given
postcode. -/
def groupPrices (rows : List HRow) (pc : String) : List ℚ :=
  (rows.filter (fun r => decide (r.postcode = pc))).map HRow.price

/-- Lookup of a key in a key-value series, first match wins (pandas `.map`
of a Series indexed by the groupby keys). -/
def lookupKey : List (String × ℚ) → String → Option ℚ
  | [], _ => none
  | (k, v) :: rest, pc => if pc = k then some v else lookupKey rest pc

/-- `df.groupby('postcode')['saleEstimate_currentPrice'].mean()`: one entry
per distinct postcode, carrying the mean price of that postcode's group. -/
def groupMeans (rows : List HRow) : List (String × ℚ) :=
  ((rows.map HRow.postcode).dedup).map (fun pc => (pc, mean (groupPrices rows pc)))

/-- The whole target-encoding step: each row gets `Postcode_Encoded` by
looking its postcode up in the groupby-mean series, and loses its postcode
column. -/
def targetEncodePostcodeRows (rows : List HRow) : List HRowEncoded :=
  rows.map (fun r => ⟨r.price, r.rest, lookupKey (groupMeans rows) r.postcode⟩)

/-- Looking a key up in a series built by mapping a function over a key list
containing it yields that function's value at the key. -/
theorem lookupKey_map_self (g : String → ℚ) :
    ∀ (l : List String) (k : String), k ∈ l →
      lookupKey (l.map (fun x => (x, g x))) k = some (g k) := by
  intro l
  induction l with
  | nil => intro k hk; simp at hk
  | cons a l ih =>
    intro k hk
    by_cases h : k = a
    · simp [lookupKey, h]
    · have hk2 : k ∈ l := by
        rcases List.mem_cons.mp hk with h1 | h1
        · exact absurd h1 h
        · exact h1
      simp [lookupKey, h, ih k hk2]

/-- C5: for every row, the target-encoding step sets `Postcode_Encoded` to
the mean of `saleEstimate_currentPrice` over all rows sharing that row's
postcode, leaves the row's other values unchanged, and produces rows without
the postcode column (the output row type has none); the row count is
preserved. -/
theorem postcode_target_encoding_correct (rows : List HRow) (i : ℕ)
    (hi : i < rows.length) :
    (targetEncodePostcodeRows rows).length = rows.length ∧
    ((targetEncodePostcodeRows rows).getD i defaultHRowEncoded).price =
      (rows.getD i defaultHRow).price ∧
    ((targetEncodePostcodeRows rows).getD i defaultHRowEncoded).rest =
      (rows.getD i defaultHRow).rest ∧
    ((targetEncodePostcodeRows rows).getD i defaultHRowEncoded).postcodeEncoded =
      some (mean (groupPrices rows (rows.getD i defaultHRow).postcode)) := by
  have hmap : (targetEncodePostcodeRows rows).getD i defaultHRowEncoded =
      (fun r : HRow =>
        HRowEncoded.mk r.price r.rest (lookupKey (groupMeans rows) r.postcode))
        (rows.getD i defaultHRow) :=
    getD_map_of_lt _ rows i hi defaultHRow defaultHRowEncoded
  refine ⟨by simp [targetEncodePostcodeRows], ?_, ?_, ?_⟩
  · rw [hmap]
  · rw [hmap]
  · rw [hmap]
    show lookupKey (groupMeans rows) (rows.getD i defaultHRow).postcode = _
    have hmem : (rows.getD i defaultHRow).postcode ∈ (rows.map HRow.postcode).dedup :=
      List.mem_dedup.mpr
        (List.mem_map_of_mem HRow.postcode (getD_mem_of_lt rows i hi defaultHRow))
    exact lookupKey_map_self (fun pc => mean (groupPrices rows pc)) _ _ hmem

/-- Concrete rows for instantiating the target-encoding theorem: two rows
share postcode "N2". -/
def sampleRows : List HRow :=
  [⟨"N2", 100, []⟩, ⟨"E1", 50, []⟩, ⟨"N2", 200, []⟩]

/-- Witness for C5: the first sample row's `Postcode_Encoded` is the mean
price over the rows with its postcode. -/
theorem postcode_target_encoding_witness :
    ((targetEncodePostcodeRows sampleRows).getD 0 defaultHRowEncoded).postcodeEncoded =
      some (mean (groupPrices sampleRows (sampleRows.getD 0 defaultHRow).postcode)) :=
  (postcode_target_encoding_correct sampleRows 0 (by decide)).2.2.2

/-! ## Fetching the latest approved model package (deployment notebook)

    response = sagemaker_client.list_model_packages(
        ModelPackageGroupName=..., ModelApprovalStatus='Approved',
        SortBy='CreationTime', SortOrder='Descending')
    latest_model_package_arn = response['ModelPackageSummaryList'][0]['ModelPackageArn']

The server-side semantics of `list_model_packages` with these arguments is to
return the group's packages with approval status `Approved`, sorted by
creation time, newest first; the notebook then indexes `[0]`, which raises
`IndexError` on an empty list — modelled by `Option` with `none` for the
failing index. -/

/-- A model package summary as returned in `ModelPackageSummaryList`. -/
structure ModelPackageSummary where
  modelPackageArn : String
  modelApprovalStatus : String
  creationTime : ℕ
deriving DecidableEq

/-- Newest-first order on model package summaries (`SortBy='CreationTime'`,
`SortOrder='Descending'`). -/
def creationDesc (a b : ModelPackageSummary) : Prop :=
  b.creationTime ≤ a.creationTime

instance : DecidableRel creationDesc := fun _ _ => Nat.decLe _ _

/-- The `ModelPackageSummaryList` of the notebook's `list_model_packages`
call: the group's packages filtered to approval status `Approved`, newest
first. -/
def listModelPackagesApproved (ps : List ModelPackageSummary) : List ModelPackageSummary :=
  List.insertionSort creationDesc
    (ps.filter (fun p => p.modelApprovalStatus == "Approved"))

/-- The notebook's `response['ModelPackageSummaryList'][0]['ModelPackageArn']`:
`none` models the `IndexError` raised when the summary list is empty. -/
def latestApprovedModelPackage (ps : List ModelPackageSummary) : Option String :=
  ((listModelPackagesApproved ps).head?).map ModelPackageSummary.modelPackageArn

/-- C8: the latest-approved-model-package step fails (its `[0]` raises an
`IndexError`, modelled by `none`) exactly when the group holds no package
with approval status `Approved`; equivalently, its precondition is that at
least one approved model package exists. -/
theorem latest_approved_indexing (ps : List ModelPackageSummary) :
    latestApprovedModelPackage ps = none ↔
      ∀ p ∈ ps, p.modelApprovalStatus ≠ "Approved" := by
  constructor
  · intro h p hp hst
    have hmem : p ∈ ps.filter (fun q => q.modelApprovalStatus == "Approved") :=
      List.mem_filter.mpr ⟨hp, by simp [hst]⟩
    have hmem2 : p ∈ List.insertionSort creationDesc
        (ps.filter (fun q => q.modelApprovalStatus == "Approved")) :=
      (List.perm_insertionSort creationDesc _).mem_iff.mpr hmem
    unfold latestApprovedModelPackage listModelPackagesApproved at h
    cases hsort : List.insertionSort creationDesc
        (ps.filter (fun q => q.modelApprovalStatus == "Approved")) with
    | nil => rw [hsort] at hmem2; exact absurd hmem2 (List.not_mem_nil p)
    | cons a t => rw [hsort] at h; simp at h
  · intro h
    have hfil : ps.filter (fun q => q.modelApprovalStatus == "Approved") = [] := by
      rw [List.filter_eq_nil_iff]
      intro a ha
      simp [h a ha]
    unfold latestApprovedModelPackage listModelPackagesApproved
    rw [hfil]
    rfl
